import Mathlib

/-!
Verification of the gesture volume controller
(`src/gesture_volume_controller.py`).

The numeric pipeline of the program is embedded shallowly:

* floating-point quantities are modelled as exact rationals (`ℚ`);
* Python's `int()` conversion is `pyInt` (truncation toward zero);
* `numpy.interp` on a two-point grid is `npInterp`;
* `GestureVolumeController.smooth_volume` is `smooth_volume`, returning the
  updated history list together with the returned integer (the Python method
  mutates the list in place and returns the integer);
* the per-frame state of the controller (the two history lists and the two
  last smoothed values) is `ControllerState`;
* the body of the tracking branch of `run` (lines 162-177: clamp, the two
  `np.interp` calls, the two `smooth_volume` calls, the `set_volume` call)
  is `trackStep`;
* a frame observation is `Frame`: either no hand, or one hand's landmark
  list (the program runs with `max_num_hands=1`);
* `get_distance` computes `math.sqrt((x2-x1)**2 + (y2-y1)**2)`, which is
  irrational for general integer pixel coordinates, so the frame step
  `stepFrame` is parametrised by the measured-distance function
  `dist : Landmark → Landmark → ℚ`; `get_distance_sq` records the radicand.
  Every state-machine property below holds for an arbitrary `dist`, and the
  purely numeric properties are stated directly over the distance value;
* the `'r'` key handler (lines 201-205) is `resetHistory`; the argument the
  loop passes to `draw_volume_bar` (line 192) is `displayedPercent`;
* `set_volume`'s `try/except` wrapper is modelled by passing in the outcome
  of the host OS call (`Except String Unit`) and returning the unchanged
  state together with the log lines printed.
-/

/-- Field `self.min_vol = 0` of `GestureVolumeController.__init__`. -/
def min_vol : ℚ := 0

/-- Field `self.max_vol = 100` of `GestureVolumeController.__init__`. -/
def max_vol : ℚ := 100

/-- Field `self.min_hand_distance = 30` of `GestureVolumeController.__init__`. -/
def min_hand_distance : ℚ := 30

/-- Field `self.max_hand_distance = 200` of `GestureVolumeController.__init__`. -/
def max_hand_distance : ℚ := 200

/-- Field `self.history_size = 5` of `GestureVolumeController.__init__`. -/
def history_size : ℕ := 5

/-- Python's `int()` applied to an exact rational: truncation toward zero.
For a nonnegative argument this is the floor; for a negative argument it is
the negated floor of the negation (equivalently the ceiling). -/
def pyInt (q : ℚ) : ℤ := if 0 ≤ q then ⌊q⌋ else -⌊-q⌋

/-- Model of `np.interp(x, [x0, x1], [y0, y1])` for a strictly increasing
two-point grid: values left of the grid return `y0`, values right of it
return `y1`, and values inside are linearly interpolated. -/
def npInterp (x x0 x1 y0 y1 : ℚ) : ℚ :=
  if x ≤ x0 then y0
  else if x1 ≤ x then y1
  else y0 + (x - x0) * (y1 - y0) / (x1 - x0)

/-- Model of `GestureVolumeController.smooth_volume` (lines 73-78):
append `current_vol` to the history, pop the front element if the length now
exceeds `history_size`, and return `int(sum(history) / len(history))`.
The result pairs the updated history list with the returned integer. -/
def smooth_volume (current_vol : ℚ) (history_list : List ℚ) : List ℚ × ℤ :=
  let h := history_list ++ [current_vol]
  let h2 := if history_size < h.length then h.drop 1 else h
  (h2, pyInt (h2.sum / (h2.length : ℚ)))

/-- The controller state the frame loop mutates: the two smoothing
histories (`self.volume_history`, `self.vol_per_history`) and the last
smoothed outputs (`self.current_vol_smooth`, `self.current_vol_per_smooth`). -/
structure ControllerState where
  volume_history : List ℚ
  vol_per_history : List ℚ
  current_vol_smooth : ℤ
  current_vol_per_smooth : ℤ
  deriving DecidableEq, Repr

/-- The state built by `GestureVolumeController.__init__`: empty histories,
both smoothed values `0`. -/
def initState : ControllerState :=
  { volume_history := [], vol_per_history := [],
    current_vol_smooth := 0, current_vol_per_smooth := 0 }

/-- Line 166: `distance = max(self.min_hand_distance, min(distance, self.max_hand_distance))`. -/
def clampDistance (d : ℚ) : ℚ := max min_hand_distance (min d max_hand_distance)

/-- Line 169 applied to a clamped distance:
`vol = np.interp(distance, [30, 200], [self.max_vol, self.min_vol])`. -/
def vol_of (d : ℚ) : ℚ :=
  npInterp (clampDistance d) min_hand_distance max_hand_distance max_vol min_vol

/-- Line 170 applied to a clamped distance:
`vol_per = np.interp(distance, [30, 200], [100, 0])`. -/
def vol_per_of (d : ℚ) : ℚ :=
  npInterp (clampDistance d) min_hand_distance max_hand_distance 100 0

/-- Lines 162-177 of `GestureVolumeController.run`, given the measured
fingertip distance: clamp, interpolate both signals, smooth both signals,
and hand `self.current_vol_smooth` to `set_volume`. Returns the new state
and the value passed to `set_volume`. -/
def trackStep (s : ControllerState) (distance : ℚ) : ControllerState × ℤ :=
  let vol := vol_of distance
  let vol_per := vol_per_of distance
  let r1 := smooth_volume vol s.volume_history
  let r2 := smooth_volume vol_per s.vol_per_history
  ({ volume_history := r1.1, vol_per_history := r2.1,
     current_vol_smooth := r1.2, current_vol_per_smooth := r2.2 }, r1.2)

/-- A landmark as built on lines 144-148: integer pixel coordinates. -/
abbrev Landmark : Type := ℤ × ℤ

/-- The radicand of `GestureVolumeController.get_distance` (line 71):
`get_distance` returns `math.sqrt` of this value. -/
def get_distance_sq (point1 point2 : Landmark) : ℤ :=
  (point2.1 - point1.1) ^ 2 + (point2.2 - point1.2) ^ 2

/-- One frame's hand observation: `results.multi_hand_landmarks` empty, or
one hand's landmark list (`max_num_hands=1`). -/
inductive Frame where
  | noHand : Frame
  | hand (landmarks : List Landmark) : Frame
  deriving DecidableEq

/-- One iteration of the detection part of the frame loop (lines 134-185),
parametrised by the measured-distance function `dist` (which models
`get_distance` on thumb tip `landmarks[4]` and index tip `landmarks[8]`).
Only a hand frame with at least 9 landmarks (line 151) runs `trackStep`;
the second component records the argument of the `set_volume` call, `none`
when `set_volume` is not called this frame. -/
def stepFrame (dist : Landmark → Landmark → ℚ) (s : ControllerState) (f : Frame) :
    ControllerState × Option ℤ :=
  match f with
  | Frame.noHand => (s, none)
  | Frame.hand landmarks =>
    if h : 9 ≤ landmarks.length then
      let thumb_tip := landmarks.get ⟨4, by omega⟩
      let index_tip := landmarks.get ⟨8, by omega⟩
      let r := trackStep s (dist thumb_tip index_tip)
      (r.1, some r.2)
    else (s, none)

/-- The `'r'` key handler (lines 201-205): `self.volume_history.clear()`
and `self.vol_per_history.clear()`; nothing else is assigned. -/
def resetHistory (s : ControllerState) : ControllerState :=
  { volume_history := [], vol_per_history := [],
    current_vol_smooth := s.current_vol_smooth,
    current_vol_per_smooth := s.current_vol_per_smooth }

/-- The value the loop hands to `draw_volume_bar` every frame (line 192):
`self.current_vol_per_smooth`. -/
def displayedPercent (s : ControllerState) : ℤ := s.current_vol_per_smooth

/-- Folding the frame step over a list of frames. -/
def runFrames (dist : Landmark → Landmark → ℚ) (s : ControllerState)
    (frames : List Frame) : ControllerState :=
  frames.foldl (fun st f => (stepFrame dist st f).1) s

/-- Folding the tracking branch over a list of measured distances. -/
def runTrack (s : ControllerState) (ds : List ℚ) : ControllerState :=
  ds.foldl (fun st d => (trackStep st d).1) s

/-- The history list obtained by feeding `values` through `smooth_volume`
starting from an empty history. -/
def windowAfter (values : List ℚ) : List ℚ :=
  values.foldl (fun w v => (smooth_volume v w).1) []

/-- Model of `GestureVolumeController.set_volume` (lines 44-67) at the level
of the pipeline state: the method only reads `self.os_type` and issues an OS
call; its `try/except` catches any failure of that call and prints
`"Error setting volume: ..."`. The outcome of the host call is passed in;
the result is the (unchanged) state and the log lines printed. -/
def set_volume (s : ControllerState) (hostResult : Except String Unit) :
    ControllerState × List String :=
  match hostResult with
  | Except.ok _ => (s, [])
  | Except.error e => (s, ["Error setting volume: " ++ e])

/-- One frame-loop iteration including the `set_volume` side effect: run the
frame step; when it attempts a volume set, run `set_volume` with the given
host outcome. At most one `set_volume` attempt is made per frame, and a
failed attempt is never retried. -/
def stepFrameHost (dist : Landmark → Landmark → ℚ) (s : ControllerState)
    (f : Frame) (hostResult : Except String Unit) : ControllerState × List String :=
  match stepFrame dist s f with
  | (s1, none) => (s1, [])
  | (s1, some _) => set_volume s1 hostResult

/-- Folding the frame loop with per-frame host-call outcomes. -/
def runHost (dist : Landmark → Landmark → ℚ) (s : ControllerState)
    (events : List (Frame × Except String Unit)) : ControllerState :=
  events.foldl (fun st e => (stepFrameHost dist st e.1 e.2).1) s

/-! Helper lemmas shared by the claim theorems. -/

/-- Evaluation rule for `pyInt` on nonnegative arguments. -/
lemma pyInt_eq_of_nonneg (q : ℚ) (z : ℤ) (h0 : 0 ≤ q) (h1 : (z : ℚ) ≤ q)
    (h2 : q < z + 1) : pyInt q = z := by
  rw [pyInt, if_pos h0, Int.floor_eq_iff]
  constructor
  · exact_mod_cast h1
  · exact_mod_cast h2

/-- On integers, Python's `int()` is the identity. -/
lemma pyInt_intCast (z : ℤ) : pyInt ((z : ℚ)) = z := by
  rcases le_or_lt 0 ((z : ℚ)) with h | h
  · rw [pyInt, if_pos h, Int.floor_intCast]
  · rw [pyInt, if_neg (not_le.mpr h), ← Int.cast_neg, Int.floor_intCast, neg_neg]

/-- The truncation-toward-zero bracketing of `pyInt`: on nonnegative input the
result is at most the input and within one below it; on negative input the
result is at least the input and within one above it. -/
lemma pyInt_trunc (q : ℚ) :
    (0 ≤ q → (pyInt q : ℚ) ≤ q ∧ q < pyInt q + 1) ∧
    (q < 0 → q ≤ (pyInt q : ℚ) ∧ (pyInt q : ℚ) - 1 < q) := by
  constructor
  · intro h
    rw [pyInt, if_pos h]
    exact ⟨Int.floor_le q, Int.lt_floor_add_one q⟩
  · intro h
    rw [pyInt, if_neg (not_le.mpr h)]
    have h1 : (⌊-q⌋ : ℚ) ≤ -q := Int.floor_le _
    have h2 : -q < ⌊-q⌋ + 1 := Int.lt_floor_add_one _
    constructor
    · push_cast
      linarith
    · push_cast
      linarith

/-- The clamped distance lies in `[30, 200]`. -/
lemma clampDistance_mem (d : ℚ) : 30 ≤ clampDistance d ∧ clampDistance d ≤ 200 := by
  unfold clampDistance min_hand_distance max_hand_distance
  constructor
  · exact le_max_left _ _
  · exact max_le (by norm_num) (min_le_right _ _)

/-- Clamping is monotone. -/
lemma clampDistance_mono {d1 d2 : ℚ} (h : d1 ≤ d2) :
    clampDistance d1 ≤ clampDistance d2 := by
  unfold clampDistance
  exact max_le_max le_rfl (min_le_min h le_rfl)

/-- Closed form of the mapped percentage: an affine function of the clamped
distance with slope `-100/170`. -/
lemma vol_per_of_closed (d : ℚ) :
    vol_per_of d = 100 - 100 * (clampDistance d - 30) / 170 := by
  have h1 := (clampDistance_mem d).1
  have h2 := (clampDistance_mem d).2
  simp only [vol_per_of, npInterp, min_hand_distance, max_hand_distance]
  split_ifs with ha hb
  · have hc : clampDistance d = 30 := le_antisymm ha h1
    rw [hc]
    norm_num
  · have hc : clampDistance d = 200 := le_antisymm h2 hb
    rw [hc]
    norm_num
  · ring

/-- Under the configured ranges the two interpolated signals coincide. -/
lemma vol_of_eq_vol_per_of (d : ℚ) : vol_of d = vol_per_of d := by
  simp [vol_of, vol_per_of, max_vol, min_vol]

/-- Concrete mapper value at the lower clamp bound. -/
lemma vol_per_of_30 : vol_per_of 30 = 100 := by
  norm_num [vol_per_of, clampDistance, npInterp, min_hand_distance, max_hand_distance]

/-- Concrete mapper value at the upper clamp bound. -/
lemma vol_per_of_200 : vol_per_of 200 = 0 := by
  norm_num [vol_per_of, clampDistance, npInterp, min_hand_distance, max_hand_distance]

/-- Concrete mapper value at distance `50`: a non-integer rational. -/
lemma vol_per_of_50 : vol_per_of 50 = 1500 / 17 := by
  norm_num [vol_per_of, clampDistance, npInterp, min_hand_distance, max_hand_distance]

/-- Smoothing into an empty history keeps the appended value and returns its
truncation. -/
lemma smooth_volume_nil (v : ℚ) : smooth_volume v [] = ([v], pyInt v) := by
  simp [smooth_volume, history_size]

/-- One smoothing step preserves the history-size bound. -/
lemma smooth_length_le (v : ℚ) (w : List ℚ) (h : w.length ≤ history_size) :
    (smooth_volume v w).1.length ≤ history_size := by
  show (if history_size < (w ++ [v]).length then (w ++ [v]).drop 1
    else w ++ [v]).length ≤ history_size
  simp only [history_size] at h ⊢
  split_ifs with hc
  · simp only [List.length_drop, List.length_append, List.length_singleton]
    omega
  · simp only [List.length_append, List.length_singleton] at hc ⊢
    omega

/-- Starting from an empty history, the window never exceeds the bound. -/
lemma windowAfter_length (values : List ℚ) :
    (windowAfter values).length ≤ history_size := by
  suffices h : ∀ (vs w : List ℚ), w.length ≤ history_size →
      (vs.foldl (fun w v => (smooth_volume v w).1) w).length ≤ history_size by
    exact h values [] (by simp)
  intro vs
  induction vs with
  | nil => intro w hw; exact hw
  | cons v vs ih =>
    intro w hw
    exact ih _ (smooth_length_le v w hw)

/-- The sum of a list all of whose elements equal `v`. -/
lemma list_const_sum {v : ℚ} {w : List ℚ} (h : ∀ x ∈ w, x = v) :
    w.sum = (w.length : ℚ) * v := by
  induction w with
  | nil => simp
  | cons a t ih =>
    simp only [List.sum_cons, List.length_cons]
    rw [h a (by simp), ih (fun x hx => h x (by simp [hx]))]
    push_cast
    ring

/-- A frame with no hand, or with fewer than 9 landmarks, leaves the state
untouched and makes no volume-set attempt. -/
lemma stepFrame_skip (dist : Landmark → Landmark → ℚ) (s : ControllerState)
    (f : Frame)
    (hf : f = Frame.noHand ∨ ∃ lms, f = Frame.hand lms ∧ lms.length < 9) :
    stepFrame dist s f = (s, none) := by
  rcases hf with h | ⟨lms, rfl, hlen⟩
  · rw [h]
    rfl
  · simp only [stepFrame]
    rw [dif_neg (by omega)]

/-- A run of frames that all skip leaves the state untouched. -/
lemma runFrames_skip (dist : Landmark → Landmark → ℚ) (s : ControllerState)
    (frames : List Frame)
    (hf : ∀ f ∈ frames,
      f = Frame.noHand ∨ ∃ lms, f = Frame.hand lms ∧ lms.length < 9) :
    runFrames dist s frames = s := by
  induction frames generalizing s with
  | nil => rfl
  | cons f fs ih =>
    have h1 : (stepFrame dist s f).1 = s := by
      rw [stepFrame_skip dist s f (hf f (List.mem_cons_self f fs))]
    show runFrames dist ((stepFrame dist s f).1) fs = s
    rw [h1]
    exact ih s (fun g hg => hf g (List.mem_cons_of_mem f hg))

/-- The pipeline state after a frame does not depend on the outcome of the
host volume call. -/
lemma stepFrameHost_state (dist : Landmark → Landmark → ℚ) (s : ControllerState)
    (f : Frame) (r : Except String Unit) :
    (stepFrameHost dist s f r).1 = (stepFrame dist s f).1 := by
  rcases h : stepFrame dist s f with ⟨s1, att⟩
  rcases att with _ | v <;> rcases r with e | u <;>
    simp [stepFrameHost, h, set_volume]

/-- Running the loop with arbitrary per-frame host outcomes computes the same
state as the loop that ignores the host. -/
lemma runHost_eq_runFrames (dist : Landmark → Landmark → ℚ)
    (events : List (Frame × Except String Unit)) :
    ∀ s : ControllerState,
      runHost dist s events = runFrames dist s (events.map Prod.fst) := by
  induction events with
  | nil => intro s; rfl
  | cons e es ih =>
    intro s
    show runHost dist ((stepFrameHost dist s e.1 e.2).1) es =
      runFrames dist ((stepFrame dist s e.1).1) ((es.map Prod.fst))
    rw [stepFrameHost_state]
    exact ih _

/-- The two smoothed series stay equal along any run of tracking frames. -/
lemma runTrack_eq_signals (ds : List ℚ) :
    ∀ s : ControllerState, s.volume_history = s.vol_per_history →
      s.current_vol_smooth = s.current_vol_per_smooth →
      (runTrack s ds).volume_history = (runTrack s ds).vol_per_history ∧
      (runTrack s ds).current_vol_smooth = (runTrack s ds).current_vol_per_smooth := by
  induction ds with
  | nil => intro s h1 h2; exact ⟨h1, h2⟩
  | cons d ds ih =>
    intro s h1 h2
    have hstep : (trackStep s d).1.volume_history = (trackStep s d).1.vol_per_history ∧
        (trackStep s d).1.current_vol_smooth = (trackStep s d).1.current_vol_per_smooth := by
      constructor <;> simp [trackStep, vol_of_eq_vol_per_of, h1]
    exact ih (trackStep s d).1 hstep.1 hstep.2

/-! The claim theorems. -/

/-- C1: the mapped volume percent of a measured distance `d` equals 100
whenever `d ≤ 30`, equals 0 whenever `d ≥ 200`, and is monotonically
non-increasing in `d` over the whole range (the distance is clamped to
`[30, 200]` before the linear interpolation onto `[100, 0]`). -/
theorem mapper_bounds_and_monotone :
    (∀ d : ℚ, d ≤ 30 → vol_per_of d = 100) ∧
    (∀ d : ℚ, 200 ≤ d → vol_per_of d = 0) ∧
    (∀ d1 d2 : ℚ, d1 ≤ d2 → vol_per_of d2 ≤ vol_per_of d1) := by
  refine ⟨?_, ?_, ?_⟩
  · intro d hd
    have hc : clampDistance d = 30 := by
      rw [clampDistance, min_hand_distance, max_hand_distance,
        min_eq_left (by linarith : d ≤ (200 : ℚ)), max_eq_left hd]
    rw [vol_per_of_closed, hc]
    norm_num
  · intro d hd
    have hc : clampDistance d = 200 := by
      rw [clampDistance, min_hand_distance, max_hand_distance,
        min_eq_right hd, max_eq_right (by norm_num : (30 : ℚ) ≤ 200)]
    rw [vol_per_of_closed, hc]
    norm_num
  · intro d1 d2 h
    rw [vol_per_of_closed, vol_per_of_closed]
    have hdiv : (clampDistance d1 - 30) / 170 ≤ (clampDistance d2 - 30) / 170 := by
      gcongr
      exact clampDistance_mono h
    linarith

/-- Witness for C1 at the concrete distances 10, 250 and the pair 40 ≤ 115. -/
theorem mapper_bounds_and_monotone_witness :
    vol_per_of 10 = 100 ∧ vol_per_of 250 = 0 ∧ vol_per_of 115 ≤ vol_per_of 40 :=
  ⟨mapper_bounds_and_monotone.1 10 (by norm_num),
   mapper_bounds_and_monotone.2.1 250 (by norm_num),
   mapper_bounds_and_monotone.2.2 40 115 (by norm_num)⟩

/-- C2: `smooth_volume` appends the value, evicts exactly the oldest element
if and only if the length then exceeds `history_size = 5`, and returns the
arithmetic mean of the resulting window truncated toward zero (for a
nonnegative mean the result is within one below the mean, for a negative
mean within one above it — truncation, not rounding). -/
theorem smooth_fifo_truncated_mean :
    ∀ (v : ℚ) (w : List ℚ),
      ((w ++ [v]).length ≤ history_size → (smooth_volume v w).1 = w ++ [v]) ∧
      (history_size < (w ++ [v]).length →
        (smooth_volume v w).1 = (w ++ [v]).drop 1) ∧
      (0 ≤ (smooth_volume v w).1.sum / ((smooth_volume v w).1.length : ℚ) →
        ((smooth_volume v w).2 : ℚ) ≤
            (smooth_volume v w).1.sum / ((smooth_volume v w).1.length : ℚ) ∧
          (smooth_volume v w).1.sum / ((smooth_volume v w).1.length : ℚ) <
            (smooth_volume v w).2 + 1) ∧
      ((smooth_volume v w).1.sum / ((smooth_volume v w).1.length : ℚ) < 0 →
        (smooth_volume v w).1.sum / ((smooth_volume v w).1.length : ℚ) ≤
            ((smooth_volume v w).2 : ℚ) ∧
          ((smooth_volume v w).2 : ℚ) - 1 <
            (smooth_volume v w).1.sum / ((smooth_volume v w).1.length : ℚ)) := by
  intro v w
  refine ⟨?_, ?_, (pyInt_trunc _).1, (pyInt_trunc _).2⟩
  · intro h
    show (if history_size < (w ++ [v]).length then (w ++ [v]).drop 1
      else w ++ [v]) = w ++ [v]
    rw [if_neg (Nat.not_lt.mpr h)]
  · intro h
    show (if history_size < (w ++ [v]).length then (w ++ [v]).drop 1
      else w ++ [v]) = (w ++ [v]).drop 1
    rw [if_pos h]

/-- Witness for C2 on the full window `[1, 2, 3, 4, 5]` fed with `7`. -/
theorem smooth_fifo_truncated_mean_witness :
    (smooth_volume 7 [1, 2, 3, 4, 5]).1 = (([1, 2, 3, 4, 5] : List ℚ) ++ [7]).drop 1 ∧
    (((smooth_volume 7 [1, 2, 3, 4, 5]).2 : ℚ) ≤
        (smooth_volume 7 [1, 2, 3, 4, 5]).1.sum /
          ((smooth_volume 7 [1, 2, 3, 4, 5]).1.length : ℚ) ∧
      (smooth_volume 7 [1, 2, 3, 4, 5]).1.sum /
          ((smooth_volume 7 [1, 2, 3, 4, 5]).1.length : ℚ) <
        (smooth_volume 7 [1, 2, 3, 4, 5]).2 + 1) :=
  ⟨(smooth_fifo_truncated_mean 7 [1, 2, 3, 4, 5]).2.1 (by decide),
   (smooth_fifo_truncated_mean 7 [1, 2, 3, 4, 5]).2.2.1 (by
      have h1 : (smooth_volume 7 [1, 2, 3, 4, 5]).1 = [2, 3, 4, 5, 7] := by
        simp [smooth_volume, history_size]
      rw [h1]
      norm_num)⟩

/-- C3: starting from an empty window the length after each `smooth_volume`
is at most `history_size = 5`, and after 6 sequential appends the result is
the mean over exactly the last 5 appended values, the first being evicted. -/
theorem window_bound_and_sixth_append :
    (∀ values : List ℚ, (windowAfter values).length ≤ history_size) ∧
    (∀ v1 v2 v3 v4 v5 v6 : ℚ,
      smooth_volume v6 (windowAfter [v1, v2, v3, v4, v5]) =
        ([v2, v3, v4, v5, v6], pyInt ((v2 + v3 + v4 + v5 + v6) / 5))) := by
  refine ⟨windowAfter_length, ?_⟩
  intro v1 v2 v3 v4 v5 v6
  have hw : windowAfter [v1, v2, v3, v4, v5] = [v1, v2, v3, v4, v5] := by
    simp [windowAfter, smooth_volume, history_size]
  rw [hw]
  simp only [smooth_volume, history_size]
  norm_num
  congr 1
  ring

/-- C4: a frame in which the extractor reports no landmarks, or whose
landmark set has fewer than 9 points, mutates neither smoothing window,
makes no volume-set call, leaves the last smoothed values unchanged, and
across any run of such frames the displayed percent is held constant. -/
theorem no_hand_frames_skip :
    (∀ (dist : Landmark → Landmark → ℚ) (s : ControllerState) (f : Frame),
      (f = Frame.noHand ∨ ∃ lms, f = Frame.hand lms ∧ lms.length < 9) →
      stepFrame dist s f = (s, none)) ∧
    (∀ (dist : Landmark → Landmark → ℚ) (s : ControllerState) (frames : List Frame),
      (∀ f ∈ frames, f = Frame.noHand ∨ ∃ lms, f = Frame.hand lms ∧ lms.length < 9) →
      runFrames dist s frames = s ∧
      displayedPercent (runFrames dist s frames) = displayedPercent s) := by
  refine ⟨stepFrame_skip, ?_⟩
  intro dist s frames hf
  refine ⟨runFrames_skip dist s frames hf, ?_⟩
  rw [runFrames_skip dist s frames hf]

/-- Witness for C4: one no-hand frame and one two-landmark frame. -/
theorem no_hand_frames_skip_witness :
    stepFrame (fun _ _ => 0) initState (Frame.hand [(0, 0), (1, 1)]) = (initState, none) ∧
    runFrames (fun _ _ => 0) initState [Frame.noHand, Frame.hand [(0, 0), (1, 1)]] = initState :=
  ⟨no_hand_frames_skip.1 _ _ _ (Or.inr ⟨[(0, 0), (1, 1)], rfl, by decide⟩),
   (no_hand_frames_skip.2 (fun _ _ => 0) initState
      [Frame.noHand, Frame.hand [(0, 0), (1, 1)]] (by
        intro f hf
        simp only [List.mem_cons, List.not_mem_nil, or_false] at hf
        rcases hf with rfl | rfl
        · exact Or.inl rfl
        · exact Or.inr ⟨[(0, 0), (1, 1)], rfl, by decide⟩)).1⟩

/-- C5 counterexample: at measured distance 50 the raw mapped value is
`1500/17`, not an integer; the first smoothed output after a reset is its
truncation 88, so it does not equal the raw (unsmoothed) mapped value. -/
theorem reset_raw_identity_counterexample :
    ((trackStep (resetHistory initState) 50).2 : ℚ) ≠ vol_of 50 := by
  have h1 : vol_of 50 = 1500 / 17 := by
    rw [vol_of_eq_vol_per_of, vol_per_of_50]
  have h2 : (trackStep (resetHistory initState) 50).2 = pyInt (1500 / 17) := by
    simp [trackStep, resetHistory, initState, smooth_volume_nil, h1]
  have h3 : pyInt ((1500 : ℚ) / 17) = 88 :=
    pyInt_eq_of_nonneg _ 88 (by norm_num) (by norm_num) (by norm_num)
  rw [h1, h2, h3]
  norm_num

/-- C5 amended: reset empties both smoothing windows in every state, and the
immediately following tracking step's smoothed output equals the truncation
toward zero (Python `int`) of that frame's raw mapped value — exactly the
raw value whenever that value is an integer. -/
theorem reset_then_first_track_amended :
    ∀ (s : ControllerState) (d : ℚ),
      (resetHistory s).volume_history = [] ∧
      (resetHistory s).vol_per_history = [] ∧
      (trackStep (resetHistory s) d).2 = pyInt (vol_of d) ∧
      (trackStep (resetHistory s) d).1.current_vol_per_smooth = pyInt (vol_per_of d) ∧
      (∀ z : ℤ, vol_of d = (z : ℚ) → ((trackStep (resetHistory s) d).2 : ℚ) = vol_of d) := by
  intro s d
  have hvol : (trackStep (resetHistory s) d).2 = pyInt (vol_of d) := by
    simp [trackStep, resetHistory, smooth_volume_nil]
  refine ⟨rfl, rfl, hvol, ?_, ?_⟩
  · simp [trackStep, resetHistory, smooth_volume_nil]
  · intro z hz
    rw [hvol, hz, pyInt_intCast]

/-- Witness for C5 amended at distance 115, whose raw mapped value is the
integer 50. -/
theorem reset_then_first_track_amended_witness :
    ((trackStep (resetHistory ⟨[1], [2], 3, 4⟩) 115).2 : ℚ) = vol_of 115 :=
  (reset_then_first_track_amended ⟨[1], [2], 3, 4⟩ 115).2.2.2.2 50 (by
    rw [vol_of_eq_vol_per_of]
    norm_num [vol_per_of, clampDistance, npInterp, min_hand_distance, max_hand_distance])

/-- C6 counterexample: repeatedly feeding distance 50 fills the window with
five copies of the mapped value `1500/17`, but the smoothed output is the
truncation 88, not that value. -/
theorem full_window_exact_identity_counterexample :
    windowAfter [vol_per_of 50, vol_per_of 50, vol_per_of 50, vol_per_of 50, vol_per_of 50] =
      [vol_per_of 50, vol_per_of 50, vol_per_of 50, vol_per_of 50, vol_per_of 50] ∧
    ((smooth_volume (vol_per_of 50)
        [vol_per_of 50, vol_per_of 50, vol_per_of 50, vol_per_of 50]).2 : ℚ) ≠
      vol_per_of 50 := by
  constructor
  · simp [windowAfter, smooth_volume, history_size]
  · rw [vol_per_of_50]
    have h2 : (smooth_volume ((1500 : ℚ) / 17)
        [1500 / 17, 1500 / 17, 1500 / 17, 1500 / 17]).2 = 88 := by
      refine pyInt_eq_of_nonneg _ 88 ?_ ?_ ?_ <;>
        norm_num [smooth_volume, history_size]
    rw [h2]
    norm_num

/-- C6 amended: once the window consists entirely of copies of `v`, the
smoothed output equals `pyInt v`, the truncation of `v` toward zero — and
therefore equals `v` exactly whenever `v` is an integer. -/
theorem full_window_truncated_identity_amended :
    ∀ (v : ℚ) (w : List ℚ), (∀ x ∈ w, x = v) →
      (smooth_volume v w).2 = pyInt v ∧
      (∀ z : ℤ, v = (z : ℚ) → ((smooth_volume v w).2 : ℚ) = v) := by
  intro v w h
  have hall : ∀ x ∈ (smooth_volume v w).1, x = v := by
    intro x hx
    have hx' : x ∈ w ++ [v] := by
      revert hx
      show x ∈ (if history_size < (w ++ [v]).length then (w ++ [v]).drop 1
        else w ++ [v]) → x ∈ w ++ [v]
      split_ifs with hc
      · exact fun hx => List.mem_of_mem_drop hx
      · exact id
    rcases List.mem_append.mp hx' with h1 | h1
    · exact h x h1
    · simpa using h1
  have hlen : (smooth_volume v w).1.length ≠ 0 := by
    show (if history_size < (w ++ [v]).length then (w ++ [v]).drop 1
      else w ++ [v]).length ≠ 0
    split_ifs with hc
    · simp only [List.length_drop, List.length_append, List.length_singleton]
      simp only [history_size, List.length_append, List.length_singleton] at hc
      omega
    · simp
  have hmean : (smooth_volume v w).1.sum / ((smooth_volume v w).1.length : ℚ) = v := by
    rw [list_const_sum hall, mul_comm, mul_div_assoc,
      div_self (by exact_mod_cast hlen), mul_one]
  have hmain : (smooth_volume v w).2 = pyInt v := by
    show pyInt ((smooth_volume v w).1.sum / ((smooth_volume v w).1.length : ℚ)) = pyInt v
    rw [hmean]
  refine ⟨hmain, ?_⟩
  intro z hz
  rw [hmain, hz, pyInt_intCast]

/-- Witness for C6 amended: a window of two copies of the integer value 42. -/
theorem full_window_truncated_identity_amended_witness :
    (smooth_volume 42 [42, 42]).2 = pyInt 42 ∧
    (∀ z : ℤ, (42 : ℚ) = (z : ℚ) → ((smooth_volume 42 [42, 42]).2 : ℚ) = 42) :=
  full_window_truncated_identity_amended 42 [42, 42] (by
    intro x hx
    simp only [List.mem_cons, List.not_mem_nil, or_false] at hx
    rcases hx with rfl | rfl <;> rfl)

/-- C7: under the configured parameters (`min_vol = 0`, `max_vol = 100`) the
raw volume and raw volume-percent signals are numerically identical for
every distance, and the two smoothed series fed from the same distance
sequence stay equal at every step. -/
theorem dual_signals_identical :
    (∀ d : ℚ, vol_of d = vol_per_of d) ∧
    (∀ ds : List ℚ,
      (runTrack initState ds).volume_history = (runTrack initState ds).vol_per_history ∧
      (runTrack initState ds).current_vol_smooth =
        (runTrack initState ds).current_vol_per_smooth) :=
  ⟨vol_of_eq_vol_per_of, fun ds => runTrack_eq_signals ds initState rfl rfl⟩

/-- C8: five consecutive frames at distances 30, 200, 30, 200, 30 starting
from empty windows yield window `[100, 0, 100, 0, 100]` and smoothed output
60 (the truncation of the mean 60). -/
theorem alternating_pinch_scenario :
    (runTrack initState [30, 200, 30, 200, 30]).vol_per_history = [100, 0, 100, 0, 100] ∧
    (runTrack initState [30, 200, 30, 200, 30]).current_vol_per_smooth = 60 ∧
    (runTrack initState [30, 200, 30, 200, 30]).volume_history = [100, 0, 100, 0, 100] ∧
    (runTrack initState [30, 200, 30, 200, 30]).current_vol_smooth = 60 := by
  refine ⟨?_, ?_, ?_, ?_⟩
  · simp [runTrack, trackStep, smooth_volume, history_size, vol_per_of_30,
      vol_per_of_200, vol_of_eq_vol_per_of, initState]
  · simp [runTrack, trackStep, smooth_volume, history_size, vol_per_of_30,
      vol_per_of_200, vol_of_eq_vol_per_of, initState]
    exact pyInt_eq_of_nonneg _ 60 (by norm_num) (by norm_num) (by norm_num)
  · simp [runTrack, trackStep, smooth_volume, history_size, vol_per_of_30,
      vol_per_of_200, vol_of_eq_vol_per_of, initState]
  · simp [runTrack, trackStep, smooth_volume, history_size, vol_per_of_30,
      vol_per_of_200, vol_of_eq_vol_per_of, initState]
    exact pyInt_eq_of_nonneg _ 60 (by norm_num) (by norm_num) (by norm_num)

/-- C9: a failed volume-set call is caught and logged, never interrupts the
loop, is not retried (at most one attempt per frame, recorded by the
`Option` result of `stepFrame`), and leaves the in-memory pipeline state
exactly as it was before the call: the state after a frame is independent of
the host outcome, and a whole run with arbitrary per-frame failures computes
the same state as the run that ignores the host. -/
theorem volume_set_failure_contained :
    (∀ (s : ControllerState) (e : String),
      set_volume s (Except.error e) = (s, ["Error setting volume: " ++ e])) ∧
    (∀ (dist : Landmark → Landmark → ℚ) (s : ControllerState) (f : Frame)
      (r : Except String Unit),
      (stepFrameHost dist s f r).1 = (stepFrame dist s f).1) ∧
    (∀ (dist : Landmark → Landmark → ℚ) (s : ControllerState)
      (events : List (Frame × Except String Unit)),
      runHost dist s events = runFrames dist s (events.map Prod.fst)) :=
  ⟨fun _ _ => rfl, stepFrameHost_state,
   fun dist s events => runHost_eq_runFrames dist events s⟩

/-- C10: reset changes only the two smoothing windows; the last smoothed
values are untouched, so the volume bar keeps displaying the pre-reset
percent across any following no-hand frames until a tracking frame produces
a new output. -/
theorem reset_touches_only_windows :
    ∀ (s : ControllerState) (dist : Landmark → Landmark → ℚ) (frames : List Frame),
      (∀ f ∈ frames, f = Frame.noHand) →
      (resetHistory s).current_vol_smooth = s.current_vol_smooth ∧
      (resetHistory s).current_vol_per_smooth = s.current_vol_per_smooth ∧
      (resetHistory s).volume_history = [] ∧
      (resetHistory s).vol_per_history = [] ∧
      displayedPercent (runFrames dist (resetHistory s) frames) = displayedPercent s := by
  intro s dist frames hf
  refine ⟨rfl, rfl, rfl, rfl, ?_⟩
  rw [runFrames_skip dist (resetHistory s) frames (fun f hfm => Or.inl (hf f hfm))]
  rfl

/-- Witness for C10 on a concrete state and one following no-hand frame. -/
theorem reset_touches_only_windows_witness :
    (resetHistory ⟨[1], [2], 3, 4⟩).current_vol_smooth =
      (⟨[1], [2], 3, 4⟩ : ControllerState).current_vol_smooth ∧
    (resetHistory ⟨[1], [2], 3, 4⟩).current_vol_per_smooth =
      (⟨[1], [2], 3, 4⟩ : ControllerState).current_vol_per_smooth ∧
    (resetHistory ⟨[1], [2], 3, 4⟩).volume_history = [] ∧
    (resetHistory ⟨[1], [2], 3, 4⟩).vol_per_history = [] ∧
    displayedPercent (runFrames (fun _ _ => 0) (resetHistory ⟨[1], [2], 3, 4⟩)
        [Frame.noHand]) =
      displayedPercent ⟨[1], [2], 3, 4⟩ :=
  reset_touches_only_windows ⟨[1], [2], 3, 4⟩ (fun _ _ => 0) [Frame.noHand] (by
    intro f hf
    simpa using hf)
